import Mathlib

set_option maxRecDepth 100000

/-!
Verification development for the `btx` repository's `Indexer` class
(`src/btx/processing/indexer.py`).  The Python class is shallowly embedded:
strings stay strings, files are modelled as their list of lines, side effects
(file writes, HTTP POSTs, console messages) are collected in explicit result
values, and exceptions become explicit error values.
-/

namespace Btx

/-! ### Small Python-semantics helpers -/

/-- Python `str` on a nonnegative integer: the decimal numeral, which is
exactly Lean's `Nat.repr`. -/
def pyStrNat (n : Nat) : String :=
  Nat.repr n

/-- Python format spec `{:04}` on a nonnegative integer: pad with zeros on the
left to a minimum width of 4; wider numbers are left unchanged. -/
def pad4 (n : Nat) : String :=
  let s := pyStrNat n
  if s.length < 4 then String.mk (List.replicate (4 - s.length) '0') ++ s else s

/-- Python `str.strip(c)` for a single strip character: remove all leading and
trailing occurrences of `c`. -/
def stripChar (c : Char) (s : String) : String :=
  String.mk (((s.data.dropWhile (· = c)).reverse.dropWhile (· = c)).reverse)

/-- Value of a nonempty all-digit character list, read in base 10. -/
def readDigits : List Char → Option Nat
  | [] => none
  | [c] => if c.isDigit then some (c.toNat - 48) else none
  | c :: cs =>
    match readDigits cs, if c.isDigit then some (c.toNat - 48) else none with
    | some v, some d => some (d * 10 ^ cs.length + v)
    | _, _ => none

/-- Python `int(s)` on a string, as far as the code under scrutiny exercises
it: surrounding whitespace is stripped and an optionally `-`-signed decimal
numeral is parsed; anything else is a `ValueError`, modelled as `none`.
(Python additionally accepts a leading `+` and `_` digit separators; the
summary files parsed here never contain those.) -/
def pyInt (s : String) : Option Int :=
  match ((s.data.dropWhile Char.isWhitespace).reverse.dropWhile
      Char.isWhitespace).reverse with
  | '-' :: cs => (readDigits cs).map (fun v => -(v : Int))
  | cs => (readDigits cs).map (fun v => (v : Int))

/-- Python `os.path.join(a, b)` for POSIX paths: `b` wins if absolute,
otherwise the two parts are glued, inserting `/` unless `a` is empty or
already ends with `/`. -/
def osPathJoin (a b : String) : String :=
  if b.data.head? = some '/' then b
  else if a.data = [] ∨ a.data.getLast? = some '/' then a ++ b
  else a ++ "/" ++ b

/-- Split a character list at each occurrence of `sep`, Python
`str.split(sep)` style for a one-character separator: the separators are
dropped and empty pieces are kept, so a text ending in the separator yields a
trailing empty piece. -/
def splitChar (sep : Char) : List Char → List (List Char)
  | [] => [[]]
  | c :: cs =>
    match splitChar sep cs with
    | [] => [[]]
    | l :: ls => if c = sep then [] :: l :: ls else (c :: l) :: ls

/-- Python `str.split("\n")`. -/
def splitNL : List Char → List (List Char) :=
  splitChar '\n'

/-- Substring test, Python `pat in s` / `grep` fixed-string matching. -/
def containsSub (pat s : String) : Bool :=
  decide (pat.data <:+: s.data)

/-- Round the fraction `N / D` (with `D > 0`) to the nearest integer, ties
to even — the rounding Python's `{:.2f}` float formatting applies. -/
def roundHalfEvenFrac (N D : Int) : Int :=
  let f := N.fdiv D
  let r := N - f * D
  if 2 * r < D then f
  else if D < 2 * r then f + 1
  else if f % 2 = 0 then f else f + 1

/-- Python digit pair with leading zero, for the two decimal places. -/
def pad2 (m : Nat) : String :=
  if m < 10 then "0" ++ pyStrNat m else pyStrNat m

/-- Python `f"{num / den:.2f}"` for `den ≠ 0`, computed on the exact rational
value `num / den`.  (IEEE-754 binary representation error can shift a decimal
tie before Python rounds it, which no claim here exercises.) -/
def format2f (num den : Int) : String :=
  let N := if den < 0 then -(100 * num) else 100 * num
  let D := if den < 0 then -den else den
  let s := roundHalfEvenFrac N D
  let a := s.natAbs
  (if s < 0 then "-" else "") ++ pyStrNat (a / 100) ++ "." ++ pad2 (a % 100)

/-! ### Data model: constructor arguments, environment, Indexer state -/

/-- Arguments of `Indexer.__init__`, with the Python default values. -/
structure IndexerArgs where
  exp : String
  run : Nat
  det_type : String
  tag : String
  taskdir : String
  geom : String
  cell : Option String := none
  int_rad : String := "4,5,6"
  methods : String := "mosflm"
  tolerance : String := "5,5,5,1.5"
  tag_cxi : Option String := none
  no_revalidate : Bool := true
  multi : Bool := true
  profile : Bool := true
deriving DecidableEq

/-- The process environment the class reads: `NCORES` and `WHICHPYTHON` are
accessed unconditionally (a missing one raises `KeyError`, an unmodelled
abort), `TMP_EXE` and `JID_UPDATE_COUNTERS` are optional. -/
structure Env where
  ncores : String
  tmp_exe : Option String := none
  whichpython : String
  jid_update_counters : Option String := none
deriving DecidableEq

/-- Normalisation `_retrieve_paths` applies to `tag_cxi`: `None` becomes
`""`; a non-empty value not starting with `'_'` gets `'_'` prepended. -/
def normalizeTagCxi : Option String → String
  | none => ""
  | some t => if t ≠ "" ∧ t.data.head? ≠ some '_' then "_" ++ t else t

/-- The `Indexer` object after `__init__` ran `_retrieve_paths` and
`_parallel_logic`: parameters plus all derived paths, the interpreter and
script paths, the core-count string and the MPI rank. -/
structure Indexer where
  exp : String
  run : Nat
  det_type : String
  taskdir : String
  tag : String
  tag_cxi : String
  geom : String
  cell : Option String
  rad : String
  methods : String
  tolerance : String
  no_revalidate : Bool
  multi : Bool
  profile : Bool
  lst : String
  stream : String
  tmp_exe : String
  peakfinding_summary : String
  indexing_summary : String
  script_path : String
  python_path : String
  nproc : String
  rank : Nat
deriving DecidableEq

/-- Constructor `Indexer.__init__`: stores the arguments, then `_retrieve_paths` derives
the `.lst`, `.stream`, executable and summary paths, and `_parallel_logic`
reads `NCORES` and keeps the MPI rank only when more than one core is
configured.  `scriptPath` stands for `os.path.abspath(__file__)` and
`mpiRank` for `MPI.COMM_WORLD.Get_rank()`. -/
def mkIndexer (a : IndexerArgs) (env : Env) (scriptPath : String) (mpiRank : Nat) : Indexer :=
  let tagCxi := normalizeTagCxi a.tag_cxi
  { exp := a.exp
    run := a.run
    det_type := a.det_type
    taskdir := a.taskdir
    tag := a.tag
    tag_cxi := tagCxi
    geom := a.geom
    cell := a.cell
    rad := a.int_rad
    methods := a.methods
    tolerance := a.tolerance
    no_revalidate := a.no_revalidate
    multi := a.multi
    profile := a.profile
    lst := osPathJoin a.taskdir
      ("r" ++ pad4 a.run ++ "/r" ++ pad4 a.run ++ tagCxi ++ ".lst")
    stream := osPathJoin a.taskdir
      ("r" ++ pad4 a.run ++ "_" ++ a.tag ++ ".stream")
    tmp_exe :=
      match env.tmp_exe with
      | some p => p
      | none => osPathJoin a.taskdir
          ("r" ++ pad4 a.run ++ "/index_r" ++ pad4 a.run ++ ".sh")
    peakfinding_summary := osPathJoin a.taskdir
      ("r" ++ pad4 a.run ++ "/peakfinding" ++ tagCxi ++ ".summary")
    indexing_summary := osPathJoin a.taskdir
      ("r" ++ pad4 a.run ++ "/indexing_" ++ a.tag ++ ".summary")
    script_path := scriptPath
    python_path := env.whichpython
    nproc := env.ncores
    rank := if 1 < (pyInt env.ncores).getD 0 then mpiRank else 0 }

/-! ### write_exe -/

/-- The `indexamajig` command line `write_exe` assembles. -/
def Indexer.command (idx : Indexer) : String :=
  "indexamajig -i " ++ idx.lst ++ " -o " ++ idx.stream ++ " -j " ++ idx.nproc
    ++ " -g " ++ idx.geom ++ " --peaks=cxi --int-rad=" ++ idx.rad
    ++ " --indexing=" ++ idx.methods ++ " --tolerance=" ++ idx.tolerance
    ++ (match idx.cell with
        | some c => " --pdb=" ++ c
        | none => "")
    ++ (if idx.no_revalidate then " --no-revalidate" else "")
    ++ (if idx.multi then " --multi" else "")
    ++ (if idx.profile then " --profile" else "")

/-- The self-invocation reporting command line `write_exe` assembles. -/
def Indexer.commandReport (idx : Indexer) : String :=
  let c := idx.python_path ++ " " ++ idx.script_path ++ " -e " ++ idx.exp
    ++ " -r " ++ pyStrNat idx.run ++ " -d " ++ idx.det_type
    ++ " --taskdir " ++ idx.taskdir ++ " --report --tag " ++ idx.tag ++ " "
  if idx.tag_cxi ≠ "" then c ++ " --tag_cxi " ++ idx.tag_cxi else c

/-- Method `Indexer.write_exe`: on rank 0, writes the executable script to
`tmp_exe`; on any other rank it does nothing.  The result is the list of
(file path, file content) writes performed. -/
def Indexer.write_exe (idx : Indexer) : List (String × String) :=
  if idx.rank = 0 then
    [(idx.tmp_exe, "#!/bin/bash\n" ++ idx.command ++ "\n" ++ idx.commandReport ++ "\n")]
  else []

/-! ### report -/

/-- Exceptions `report` can raise. -/
inductive ReportError where
  /-- A list index was out of range (Python `IndexError`). -/
  | indexError : ReportError
  /-- Parsing by `int()` failed (Python `ValueError`). -/
  | valueError : ReportError
  /-- Division by a zero total count (Python `ZeroDivisionError`). -/
  | zeroDivision : ReportError
deriving DecidableEq

/-- Observable outcome of a `report` call: the file writes performed (in
order), the HTTP POST attempts (URL and JSON key/value payload), whether the
elog-failure console message was printed, and the exception that escaped to
the caller, if any (effects performed before the exception are kept). -/
structure ReportOut where
  writes : List (String × String)
  posts : List (String × List (String × String))
  console : Bool
  err : Option ReportError
deriving DecidableEq

/-- Lines of a file matching a fixed-string `grep` pattern.  `grep`'s exit
text is those lines, each newline-terminated, so Python's
`len(output.split('\n')[:-1])` is exactly the length of this list. -/
def grepLines (pat : String) (lines : List String) : List String :=
  lines.filter (fun l => containsSub pat l)

/-- The stdout text of `grep pat file`, as the Python code receives it. -/
def grepOutput (pat : String) (lines : List String) : String :=
  String.join ((grepLines pat lines).map (· ++ "\n"))

/-- Parsing of the total hit count:
`int(output.split(":")[1].split("\n")[0])` applied to the output of
`grep "Number of hits found" peakfinding_summary`.  A missing colon is an
`IndexError`, an unparsable numeral a `ValueError`. -/
def parseHitsTotal (pfLines : List String) : Except ReportError Int :=
  match splitChar ':' (grepOutput "Number of hits found" pfLines).data with
  | _ :: second :: _ =>
    match pyInt (String.mk ((splitNL second).headD [])) with
    | some n => Except.ok n
    | none => Except.error ReportError.valueError
  | _ => Except.error ReportError.indexError

/-- Key of a peakfinding-summary line: `item.split(":")[0]`, where `item` is
the line as `readlines` returns it, trailing newline included. -/
def pfKey (line : String) : String :=
  String.mk ((splitChar ':' (line ++ "\n").data).headD [])

/-- Value of a peakfinding-summary line:
`item.split(":")[1].strip(" ").strip("\n")`.  Only meaningful when the line
contains a colon; the default branch is never reached on the code path that
uses it. -/
def pfValD (line : String) : String :=
  match splitChar ':' (line ++ "\n").data with
  | _ :: v :: _ => stripChar '\n' (stripChar ' ' (String.mk v))
  | _ => ""

/-- Whether `item.split(":")[1]` exists for a summary line, i.e. the line
contains a colon. -/
def lineHasColon (line : String) : Bool :=
  2 ≤ (splitChar ':' (line ++ "\n").data).length

/-- Method `Indexer.report`: on rank 0, counts indexed patterns in the stream file,
parses the total hit count from the peakfinding summary, writes the
two-line indexing summary, then re-reads the update URL from
`JID_UPDATE_COUNTERS` — overwriting the `update_url` argument — and, when it
is set, POSTs the five-entry payload; a failing POST is caught and reduced
to a console message.  `streamLines` and `pfLines` are the lines of the
stream file and of the peakfinding summary; `postFails` says whether the
`requests.post` call raises. -/
def Indexer.report (idx : Indexer) (update_url : Option String) (env : Env)
    (streamLines pfLines : List String) (postFails : Bool) : ReportOut :=
  if idx.rank = 0 then
    let n_indexed : Nat := (grepLines "Cell parameters" streamLines).length
    match parseHitsTotal pfLines with
    | Except.error e => ⟨[], [], false, some e⟩
    | Except.ok n_total =>
      let line1 := "Number of indexed events: " ++ pyStrNat n_indexed ++ "\n"
      if n_total = 0 then
        ⟨[(idx.indexing_summary, line1)], [], false, some ReportError.zeroDivision⟩
      else
        let rate := format2f (n_indexed : Int) n_total
        let content := line1 ++ "Fractional indexing rate rate: " ++ rate ++ "\n"
        let writes := [(idx.indexing_summary, content)]
        let update_url := env.jid_update_counters
        match update_url with
        | none => ⟨writes, [], false, none⟩
        | some url =>
          let lines := pfLines.take 3
          if lines.all lineHasColon then
            if 3 ≤ lines.length then
              ⟨writes,
               [(url,
                 [(pfKey (lines.getD 0 ""), pfValD (lines.getD 0 "")),
                  (pfKey (lines.getD 1 ""), pfValD (lines.getD 1 "")),
                  (pfKey (lines.getD 2 ""), pfValD (lines.getD 2 "")),
                  ("Number of indexed events", pyStrNat n_indexed),
                  ("Fractional indexing rate", rate)])],
               postFails, none⟩
            else
              ⟨writes, [], true, none⟩
          else ⟨writes, [], false, some ReportError.indexError⟩
  else ⟨[], [], false, none⟩

/-! ### Spec-side path templates (for the refinement comparison of C1) -/

/-- Modelled from the spec's words: the template
`taskdir/r{run:04}/r{run:04}{tag_cxi}.lst`, read as plain interpolation. -/
def specLstTemplate (taskdir : String) (run : Nat) (tagCxi : String) : String :=
  taskdir ++ "/r" ++ pad4 run ++ "/r" ++ pad4 run ++ tagCxi ++ ".lst"

/-- Modelled from the spec's words: the template
`taskdir/r{run:04}_{tag}.stream`, read as plain interpolation. -/
def specStreamTemplate (taskdir : String) (run : Nat) (tag : String) : String :=
  taskdir ++ "/r" ++ pad4 run ++ "_" ++ tag ++ ".stream"

/-! ### Predicates used by the command-flag analysis -/

/-- A pattern `p` neither occurs inside the literal `lit` nor can a nonempty
proper front part of `p` end `lit`. -/
def litOK (p lit : List Char) : Prop :=
  ¬ p <:+: lit ∧ ∀ k, k < p.length → 0 < k → ¬ p.take k <:+ lit

/-- No nonempty proper tail part of `p` starts with the character `c`. -/
def dropsHeadNot (p : List Char) (c : Char) : Prop :=
  ∀ k, k < p.length → 0 < k → (p.drop k).head? ≠ some c

/-- No nonempty proper tail part of `p` is a front part of `rest`. -/
def headSafe (p rest : List Char) : Prop :=
  ∀ k, k < p.length → 0 < k → ¬ p.drop k <+: rest

/-- An optional command fragment: either absent, or a `litOK` literal that
starts with a space. -/
def optOK (p o : List Char) : Prop :=
  o = [] ∨ (litOK p o ∧ o.head? = some ' ')

/-- Concatenation of the optional trailing fragments of the command. -/
def optsConcat (opts : List (List Char)) : List Char :=
  opts.foldr (· ++ ·) []

/-- Concatenation of (literal, parameter) segments followed by optional
trailing fragments — the shape of the `indexamajig` command line. -/
def chainConcat : List (List Char × List Char) → List (List Char) → List Char
  | [], opts => optsConcat opts
  | (lit, par) :: rest, opts => lit ++ (par ++ chainConcat rest opts)

/-- A parameter string that does not itself contain either of the two flag
texts `--multi` and `--pdb=` the command is inspected for. -/
def benignParam (s : String) : Prop :=
  ¬ "--multi".data <:+: s.data ∧ ¬ "--pdb=".data <:+: s.data

instance (p lit : List Char) : Decidable (litOK p lit) := by
  unfold litOK
  infer_instance

instance (p : List Char) (c : Char) : Decidable (dropsHeadNot p c) := by
  unfold dropsHeadNot
  infer_instance

instance (s : String) : Decidable (benignParam s) := by
  unfold benignParam
  infer_instance

/-! ### Concrete instances used by witnesses and counterexamples -/

/-- A representative argument record: run 7, tag `foo`, task directory `/d`. -/
def argsW : IndexerArgs :=
  { exp := "mfx", run := 7, det_type := "epix", tag := "foo", taskdir := "/d",
    geom := "geom.geom" }

/-- A representative single-core environment. -/
def envW : Env :=
  { ncores := "1", whichpython := "python" }

/-- The environment with the elog progress URL set. -/
def envJ : Env :=
  { envW with jid_update_counters := some "https://elog/update" }

/-- Representative rank-0 Indexer. -/
def idxW : Indexer :=
  mkIndexer argsW envW "/s/indexer.py" 0

/-- Rank-0 Indexer with a unit-cell file configured. -/
def idxWcell : Indexer :=
  mkIndexer { argsW with cell := some "cell.pdb" } envW "/s/indexer.py" 0

/-- Indexer constructed on MPI rank 1 with four cores. -/
def idxRank1 : Indexer :=
  mkIndexer argsW { envW with ncores := "4" } "/s/indexer.py" 1

/-- Indexer whose task directory ends with a separator. -/
def cexTaskdir : Indexer :=
  mkIndexer { argsW with taskdir := "/d/" } envW "/s/indexer.py" 0

/-- Indexer whose `methods` parameter smuggles the text `--multi` into the
command while the multi-lattice flag is off. -/
def cexMethods : Indexer :=
  mkIndexer { argsW with methods := "--multi", multi := false } envW "/s/indexer.py" 0

/-- A three-line peakfinding summary with 100 hits. -/
def pfW : List String :=
  ["Number of hits found: 100", "Number of hits with 10 or more peaks: 80",
   "Fractional hit rate: 0.8"]

/-- A peakfinding summary reporting zero hits. -/
def pfZero : List String :=
  ["Number of hits found: 0"]

/-- A stream file with 50 indexed-pattern cell-parameter lines. -/
def sW : List String :=
  List.replicate 50 "Cell parameters 8.52 8.52 8.52 nm, 90.00 90.00 90.00 deg"

/-- A stream file with a single indexed pattern. -/
def sOne : List String :=
  ["Cell parameters 8.52 8.52 8.52 nm, 90.00 90.00 90.00 deg"]

/-! ### General lemmas about infixes of concatenations -/

theorem infix_extend_right {α : Type} {p a : List α} (b : List α) (h : p <:+: a) :
    p <:+: a ++ b := by
  obtain ⟨s, t, rfl⟩ := h
  exact ⟨s, t ++ b, by simp⟩

theorem infix_extend_left {α : Type} (a : List α) {p b : List α} (h : p <:+: b) :
    p <:+: a ++ b := by
  obtain ⟨s, t, rfl⟩ := h
  exact ⟨a ++ s, t, by simp⟩

/-- An infix of a concatenation lies in the left part, lies in the right
part, or straddles the boundary: a nonempty proper front of it ends the left
part while the matching tail starts the right part. -/
theorem infix_append_split {α : Type} {p a b : List α} (h : p <:+: a ++ b) :
    p <:+: a ∨ p <:+: b ∨
      ∃ k, 0 < k ∧ k < p.length ∧ p.take k <:+ a ∧ p.drop k <+: b := by
  obtain ⟨s, t, hst⟩ := h
  rcases le_or_lt (s.length + p.length) a.length with h1 | h1
  · left
    have h2 := congrArg (List.take (s.length + p.length)) hst
    rw [List.take_left' (by simp)] at h2
    rw [List.take_append_eq_append_take, Nat.sub_eq_zero_of_le h1, List.take_zero,
      List.append_nil] at h2
    exact ⟨s, a.drop (s.length + p.length), by rw [h2]; exact List.take_append_drop _ a⟩
  · rcases le_or_lt a.length s.length with h2 | h2
    · right; left
      have h3 := congrArg (List.drop a.length) hst
      rw [List.append_assoc] at h3
      rw [List.drop_append_eq_append_drop, Nat.sub_eq_zero_of_le h2, List.drop_zero] at h3
      rw [List.drop_left' rfl] at h3
      exact ⟨s.drop a.length, t, by rw [← h3]; simp [List.append_assoc]⟩
    · right; right
      refine ⟨a.length - s.length, by omega, by omega, ?_, ?_⟩
      · have h3 := congrArg (List.take a.length) hst
        rw [List.append_assoc, List.take_left] at h3
        rw [List.take_append_eq_append_take] at h3
        rw [List.take_of_length_le (Nat.le_of_lt h2)] at h3
        rw [List.take_append_eq_append_take] at h3
        rw [Nat.sub_eq_zero_of_le (show a.length - s.length ≤ p.length by omega)] at h3
        rw [List.take_zero, List.append_nil] at h3
        exact ⟨s, h3⟩
      · have h3 := congrArg (List.drop a.length) hst
        rw [List.append_assoc, List.drop_left] at h3
        rw [List.drop_append_eq_append_drop] at h3
        rw [List.drop_eq_nil_of_le (Nat.le_of_lt h2), List.nil_append] at h3
        rw [List.drop_append_eq_append_drop] at h3
        rw [Nat.sub_eq_zero_of_le (show a.length - s.length ≤ p.length by omega)] at h3
        rw [List.drop_zero] at h3
        exact ⟨t, h3⟩

theorem isPrefix_head_eq {α : Type} {l m : List α} (h : l <+: m) (hne : l ≠ []) :
    m.head? = l.head? := by
  obtain ⟨t, rfl⟩ := h
  cases l with
  | nil => exact absurd rfl hne
  | cons c cs => rfl

theorem headSafe_nil {p : List Char} : headSafe p [] := by
  intro k hk hk0 hpre
  have hd : p.drop k = [] := List.prefix_nil.mp hpre
  have := congrArg List.length hd
  simp at this
  omega

theorem headSafe_of_head {p rest : List Char} {c : Char} (hc : rest.head? = some c)
    (hp : dropsHeadNot p c) : headSafe p rest := by
  intro k hk hk0 hpre
  have hne : p.drop k ≠ [] := by
    intro hnil
    have := congrArg List.length hnil
    simp at this
    omega
  have heq := isPrefix_head_eq hpre hne
  rw [heq] at hc
  exact hp k hk hk0 hc

theorem headSafe_of_opt {p rest : List Char} (hd : rest = [] ∨ rest.head? = some ' ')
    (hp : dropsHeadNot p ' ') : headSafe p rest := by
  rcases hd with rfl | hd
  · exact headSafe_nil
  · exact headSafe_of_head hd hp

theorem notInfix_lit_append {p lit rest : List Char} (hlit : litOK p lit)
    (hrest : ¬ p <:+: rest) : ¬ p <:+: lit ++ rest := by
  intro h
  rcases infix_append_split h with h | h | ⟨k, hk0, hkl, hsuf, _⟩
  · exact hlit.1 h
  · exact hrest h
  · exact hlit.2 k hkl hk0 hsuf

theorem notInfix_par_append {p par rest : List Char} (hpar : ¬ p <:+: par)
    (hsafe : headSafe p rest) (hrest : ¬ p <:+: rest) : ¬ p <:+: par ++ rest := by
  intro h
  rcases infix_append_split h with h | h | ⟨k, hk0, hkl, _, hpre⟩
  · exact hpar h
  · exact hrest h
  · exact hsafe k hkl hk0 hpre

theorem optsConcat_head {p : List Char} :
    ∀ opts, (∀ o ∈ opts, optOK p o) →
      optsConcat opts = [] ∨ (optsConcat opts).head? = some ' ' := by
  intro opts
  induction opts with
  | nil => intro _; left; rfl
  | cons o os ih =>
    intro hall
    have hcons : optsConcat (o :: os) = o ++ optsConcat os := rfl
    rcases hall o (by simp) with rfl | ⟨_, hh⟩
    · simpa [hcons] using ih (fun o2 ho2 => hall o2 (by simp [ho2]))
    · right
      rw [hcons, List.head?_append, hh]
      rfl

theorem notInfix_optsConcat {p : List Char} (hne : p ≠ []) :
    ∀ opts, (∀ o ∈ opts, optOK p o) → ¬ p <:+: optsConcat opts := by
  intro opts
  induction opts with
  | nil =>
    intro _ h
    exact hne (List.infix_nil.mp h)
  | cons o os ih =>
    intro hall
    have hcons : optsConcat (o :: os) = o ++ optsConcat os := rfl
    rcases hall o (by simp) with rfl | ⟨hlit, _⟩
    · simpa [hcons] using ih (fun o2 ho2 => hall o2 (by simp [ho2]))
    · rw [hcons]
      exact notInfix_lit_append hlit (ih (fun o2 ho2 => hall o2 (by simp [ho2])))

theorem chainConcat_head {p : List Char} :
    ∀ pairs opts, (∀ pr ∈ pairs, (pr.1).head? = some ' ') → (∀ o ∈ opts, optOK p o) →
      chainConcat pairs opts = [] ∨ (chainConcat pairs opts).head? = some ' ' := by
  intro pairs
  induction pairs with
  | nil => intro opts _ hopts; exact optsConcat_head opts hopts
  | cons pr rest _ =>
    intro opts hlits _
    obtain ⟨lit, par⟩ := pr
    right
    have hh : lit.head? = some ' ' := hlits (lit, par) (by simp)
    have hcons : chainConcat ((lit, par) :: rest) opts = lit ++ (par ++ chainConcat rest opts) := rfl
    rw [hcons, List.head?_append, hh]
    rfl

theorem notInfix_chainConcat {p : List Char} (hne : p ≠ []) (hsp : dropsHeadNot p ' ') :
    ∀ pairs opts,
      (∀ pr ∈ pairs, litOK p pr.1 ∧ ¬ p <:+: pr.2) →
      (∀ pr ∈ pairs.tail, (pr.1).head? = some ' ') →
      (∀ o ∈ opts, optOK p o) →
      ¬ p <:+: chainConcat pairs opts := by
  intro pairs
  induction pairs with
  | nil => intro opts _ _ hopts; exact notInfix_optsConcat hne opts hopts
  | cons pr rest ih =>
    intro opts hpairs htail hopts
    obtain ⟨lit, par⟩ := pr
    have h1 : litOK p lit ∧ ¬ p <:+: par := hpairs (lit, par) (by simp)
    have hrest : ¬ p <:+: chainConcat rest opts :=
      ih opts (fun pr2 hpr2 => hpairs pr2 (by simp [hpr2]))
        (fun pr2 hpr2 => htail pr2 (List.mem_of_mem_tail hpr2)) hopts
    have hsafe : headSafe p (chainConcat rest opts) :=
      headSafe_of_opt (chainConcat_head rest opts htail hopts) hsp
    have hcons : chainConcat ((lit, par) :: rest) opts = lit ++ (par ++ chainConcat rest opts) := rfl
    rw [hcons]
    exact notInfix_lit_append h1.1 (notInfix_par_append h1.2 hsafe hrest)

theorem infix_optsConcat_of_mem {p o : List Char} :
    ∀ opts, o ∈ opts → p <:+: o → p <:+: optsConcat opts := by
  intro opts
  induction opts with
  | nil => intro h; cases h
  | cons o2 os ih =>
    intro ho h
    have hcons : optsConcat (o2 :: os) = o2 ++ optsConcat os := rfl
    rw [hcons]
    rcases List.mem_cons.mp ho with rfl | ho2
    · exact infix_extend_right _ h
    · exact infix_extend_left _ (ih ho2 h)

theorem infix_chainConcat_opts {p : List Char} :
    ∀ pairs opts, p <:+: optsConcat opts → p <:+: chainConcat pairs opts := by
  intro pairs
  induction pairs with
  | nil => intro opts h; exact h
  | cons pr rest ih =>
    intro opts h
    obtain ⟨lit, par⟩ := pr
    have hcons : chainConcat ((lit, par) :: rest) opts = lit ++ (par ++ chainConcat rest opts) := rfl
    rw [hcons]
    exact infix_extend_left _ (infix_extend_left _ (ih opts h))

theorem infix_chainConcat_pair {p lit par : List Char} :
    ∀ pairs opts, (lit, par) ∈ pairs → p <:+: lit ++ par →
      p <:+: chainConcat pairs opts := by
  intro pairs
  induction pairs with
  | nil => intro opts h; cases h
  | cons pr rest ih =>
    intro opts hmem h
    obtain ⟨lit2, par2⟩ := pr
    have hcons : chainConcat ((lit2, par2) :: rest) opts
        = lit2 ++ (par2 ++ chainConcat rest opts) := rfl
    rw [hcons]
    rcases List.mem_cons.mp hmem with heq | hmem2
    · injection heq with h1 h2
      subst h1
      subst h2
      have h3 := infix_extend_right (chainConcat rest opts) h
      rwa [List.append_assoc] at h3
    · exact infix_extend_left _ (infix_extend_left _ (ih opts hmem2 h))

/-! ### Lemmas about line splitting and digit rendering -/

theorem splitChar_ne_nil (sep : Char) : ∀ l, splitChar sep l ≠ [] := by
  intro l
  cases l with
  | nil => simp [splitChar]
  | cons c cs =>
    simp only [splitChar]
    split
    · simp
    · split <;> simp

theorem splitChar_append (sep : Char) :
    ∀ (a b : List Char), sep ∉ a →
      splitChar sep (a ++ sep :: b) = a :: splitChar sep b := by
  intro a
  induction a with
  | nil =>
    intro b _
    simp only [List.nil_append, splitChar]
    cases h : splitChar sep b with
    | nil => exact absurd h (splitChar_ne_nil sep b)
    | cons x xs => simp
  | cons c cs ih =>
    intro b hmem
    have hc : c ≠ sep := fun h => hmem (by simp [h])
    have hcs : sep ∉ cs := fun h => hmem (by simp [h])
    simp only [List.cons_append, splitChar, List.append_eq]
    rw [ih b hcs]
    simp [hc]

theorem splitNL_two {a b : List Char} (ha : '\n' ∉ a) (hb : '\n' ∉ b) :
    splitNL (a ++ '\n' :: (b ++ ['\n'])) = [a, b, []] := by
  show splitChar '\n' (a ++ '\n' :: (b ++ '\n' :: [])) = [a, b, []]
  rw [splitChar_append '\n' a _ ha, splitChar_append '\n' b _ hb]
  rfl

theorem splitNL_three {a b c : List Char} (ha : '\n' ∉ a) (hb : '\n' ∉ b)
    (hc : '\n' ∉ c) :
    splitNL (a ++ '\n' :: (b ++ '\n' :: (c ++ ['\n']))) = [a, b, c, []] := by
  show splitChar '\n' (a ++ '\n' :: (b ++ '\n' :: (c ++ '\n' :: []))) = [a, b, c, []]
  rw [splitChar_append '\n' a _ ha, splitChar_append '\n' b _ hb,
    splitChar_append '\n' c _ hc]
  rfl

theorem digitChar_ne_newline_of_lt (k : Nat) (hk : k < 16) :
    Nat.digitChar k ≠ '\n' := by
  interval_cases k <;> decide

theorem toDigitsCore_ne_newline :
    ∀ (f n : Nat) (acc : List Char), '\n' ∉ acc → '\n' ∉ Nat.toDigitsCore 10 f n acc := by
  intro f
  induction f with
  | zero =>
    intro n acc h
    simpa [Nat.toDigitsCore] using h
  | succ f ih =>
    intro n acc h
    simp only [Nat.toDigitsCore]
    split
    · simp only [List.mem_cons, not_or]
      exact ⟨fun heq => digitChar_ne_newline_of_lt (n % 10) (by omega) heq.symm, h⟩
    · refine ih _ _ ?_
      simp only [List.mem_cons, not_or]
      exact ⟨fun heq => digitChar_ne_newline_of_lt (n % 10) (by omega) heq.symm, h⟩

theorem pyStrNat_ne_newline (n : Nat) : '\n' ∉ (pyStrNat n).data := by
  have h : (pyStrNat n).data = Nat.toDigits 10 n := rfl
  rw [h]
  exact toDigitsCore_ne_newline (n + 1) n [] (by simp)

theorem format2f_ne_newline (num den : Int) : '\n' ∉ (format2f num den).data := by
  obtain ⟨s, hs⟩ : ∃ s : Int, format2f num den
      = (if s < 0 then "-" else "") ++ pyStrNat (s.natAbs / 100) ++ "."
          ++ pad2 (s.natAbs % 100) :=
    ⟨_, rfl⟩
  rw [hs]
  intro hmem
  simp only [String.data_append, List.mem_append] at hmem
  rcases hmem with ((h1 | h2) | h3) | h4
  · revert h1
    split <;> decide
  · exact pyStrNat_ne_newline _ h2
  · revert h3
    decide
  · revert h4
    unfold pad2
    split
    · simp only [String.data_append, List.mem_append]
      rintro (h | h)
      · revert h
        decide
      · exact pyStrNat_ne_newline _ h
    · exact fun h => pyStrNat_ne_newline _ h

/-! ### C1: path templates -/

theorem osPathJoin_eq {a b : String} (hb : b.data.head? ≠ some '/')
    (h1 : a.data ≠ []) (h2 : a.data.getLast? ≠ some '/') :
    osPathJoin a b = a ++ "/" ++ b := by
  unfold osPathJoin
  rw [if_neg hb, if_neg (by rintro (h | h); exacts [h1 h, h2 h])]

/-- C1 (corrected): for run 7, tag `foo`, task directory `/d` and `tag_cxi`
left `None`, the lst path is `/d/r0007/r0007.lst` and the stream path is
`/d/r0007_foo.stream`; the interpolation templates
`taskdir/r{run:04}/r{run:04}{tag_cxi}.lst` and `taskdir/r{run:04}_{tag}.stream`
hold for every run, tag and tag_cxi, and for every task directory that is
nonempty and does not end in a path separator — `os.path.join` drops the
template's separator for a task directory that already ends in `/`. -/
theorem c1_path_templates (a : IndexerArgs) (env : Env) (sp : String) (r : Nat)
    (h1 : a.taskdir.data ≠ []) (h2 : a.taskdir.data.getLast? ≠ some '/') :
    (mkIndexer a env sp r).lst
        = specLstTemplate a.taskdir a.run (normalizeTagCxi a.tag_cxi) ∧
    (mkIndexer a env sp r).stream = specStreamTemplate a.taskdir a.run a.tag := by
  constructor
  · show osPathJoin a.taskdir
        ("r" ++ pad4 a.run ++ "/r" ++ pad4 a.run ++ normalizeTagCxi a.tag_cxi ++ ".lst")
      = specLstTemplate a.taskdir a.run (normalizeTagCxi a.tag_cxi)
    rw [osPathJoin_eq (by simp [String.data_append]) h1 h2]
    apply String.ext
    simp [specLstTemplate, String.data_append, List.append_assoc]
  · show osPathJoin a.taskdir ("r" ++ pad4 a.run ++ "_" ++ a.tag ++ ".stream")
      = specStreamTemplate a.taskdir a.run a.tag
    rw [osPathJoin_eq (by simp [String.data_append]) h1 h2]
    apply String.ext
    simp [specStreamTemplate, String.data_append, List.append_assoc]

/-- C1 witness: the concrete instance of the spec, run through the amended
theorem. -/
theorem c1_path_templates_witness :
    idxW.lst = "/d/r0007/r0007.lst" ∧ idxW.stream = "/d/r0007_foo.stream" := by
  have h := c1_path_templates argsW envW "/s/indexer.py" 0 (by decide) (by decide)
  exact ⟨h.1.trans (by decide), h.2.trans (by decide)⟩

/-- C1 counterexample: for the task directory `/d/` the code's stream path
differs from the interpolation template, so the template part of the claim
fails for that taskdir. -/
theorem c1_template_counterexample :
    cexTaskdir.stream ≠ specStreamTemplate "/d/" 7 "foo" := by
  decide

/-! ### C2: tag_cxi normalisation -/

/-- C2 (confirmed): the constructor stores `tag_cxi` as `""` when it is
`None` or the empty string, and prepends a leading underscore to any
non-empty value that does not already start with one. -/
theorem c2_tag_cxi_normalisation (a : IndexerArgs) (env : Env) (sp : String) (r : Nat) :
    (a.tag_cxi = none → (mkIndexer a env sp r).tag_cxi = "") ∧
    (a.tag_cxi = some "" → (mkIndexer a env sp r).tag_cxi = "") ∧
    (∀ t, a.tag_cxi = some t → t ≠ "" → t.data.head? ≠ some '_' →
      (mkIndexer a env sp r).tag_cxi = "_" ++ t) := by
  refine ⟨?_, ?_, ?_⟩
  · intro h
    simp [mkIndexer, normalizeTagCxi, h]
  · intro h
    simp [mkIndexer, normalizeTagCxi, h]
  · intro t h ht1 ht2
    simp [mkIndexer, normalizeTagCxi, h, ht1, ht2]

/-- C2 witness: `"bar"` is stored as `"_bar"`, `None` and `""` as `""`. -/
theorem c2_tag_cxi_normalisation_witness :
    (mkIndexer { argsW with tag_cxi := some "bar" } envW "/s" 0).tag_cxi = "_bar" ∧
    (mkIndexer argsW envW "/s" 0).tag_cxi = "" ∧
    (mkIndexer { argsW with tag_cxi := some "" } envW "/s" 0).tag_cxi = "" := by
  refine ⟨?_, ?_, ?_⟩
  · exact ((c2_tag_cxi_normalisation { argsW with tag_cxi := some "bar" } envW "/s" 0).2.2
      "bar" rfl (by decide) (by decide)).trans (by decide)
  · exact (c2_tag_cxi_normalisation argsW envW "/s" 0).1 rfl
  · exact (c2_tag_cxi_normalisation { argsW with tag_cxi := some "" } envW "/s" 0).2.1 rfl

/-! ### C5: division by a zero total count -/

/-- C5 (confirmed): when the total hit count parsed from the peakfinding
summary is zero, `report` raises `ZeroDivisionError`, which escapes to the
caller unhandled; only the indexed-event line has been written, no rate. -/
theorem c5_zero_total_division (idx : Indexer) (u : Option String) (env : Env)
    (s pf : List String) (b : Bool) (hrank : idx.rank = 0)
    (hparse : parseHitsTotal pf = Except.ok 0) :
    idx.report u env s pf b =
      ⟨[(idx.indexing_summary,
          "Number of indexed events: "
            ++ pyStrNat (grepLines "Cell parameters" s).length ++ "\n")],
        [], false, some ReportError.zeroDivision⟩ := by
  simp [Indexer.report, hrank, hparse]

/-- C5 witness: a zero-hit peakfinding summary makes the concrete reporter
raise the division error. -/
theorem c5_zero_total_division_witness :
    idxW.report none envW sOne pfZero false =
      ⟨[("/d/r0007/indexing_foo.summary", "Number of indexed events: 1\n")],
        [], false, some ReportError.zeroDivision⟩ := by
  exact (c5_zero_total_division idxW none envW sOne pfZero false
    (by decide) (by rfl)).trans (by decide)

/-! ### C7: non-zero rank performs no side effects -/

/-- C7 (confirmed): on a non-zero rank neither `write_exe` nor `report`
writes a file, attempts a POST, prints the failure message or raises. -/
theorem c7_nonzero_rank_no_effects (idx : Indexer) (hrank : idx.rank ≠ 0) :
    idx.write_exe = [] ∧
    ∀ (u : Option String) (env : Env) (s pf : List String) (b : Bool),
      idx.report u env s pf b = ⟨[], [], false, none⟩ := by
  constructor
  · simp [Indexer.write_exe, hrank]
  · intro u env s pf b
    simp [Indexer.report, hrank]

/-- C7 witness: the rank-1 Indexer has no effects. -/
theorem c7_nonzero_rank_no_effects_witness :
    idxRank1.write_exe = [] ∧
    idxRank1.report none envW sOne pfW false = ⟨[], [], false, none⟩ := by
  have h := c7_nonzero_rank_no_effects idxRank1 (by decide)
  exact ⟨h.1, h.2 none envW sOne pfW false⟩

/-! ### C10: the update_url argument is dead -/

/-- C10 (confirmed): the `update_url` argument passed to `report` has no
effect — the URL is unconditionally re-read from `JID_UPDATE_COUNTERS`,
overwriting the parameter, so any two argument values produce identical
writes, POSTs, console output and errors. -/
theorem c10_update_url_ignored (idx : Indexer) (u1 u2 : Option String) (env : Env)
    (s pf : List String) (b : Bool) :
    idx.report u1 env s pf b = idx.report u2 env s pf b := rfl

/-! ### Shared success-path lemma for report -/

theorem report_ok_writes (idx : Indexer) (u : Option String) (env : Env)
    (s pf : List String) (b : Bool) (n_total : Int) (hrank : idx.rank = 0)
    (hparse : parseHitsTotal pf = Except.ok n_total) (hnz : ¬ n_total = 0) :
    (idx.report u env s pf b).writes =
      [(idx.indexing_summary,
        "Number of indexed events: "
          ++ pyStrNat (grepLines "Cell parameters" s).length ++ "\n"
          ++ "Fractional indexing rate rate: "
          ++ format2f ((grepLines "Cell parameters" s).length : Int) n_total
          ++ "\n")] := by
  cases hjid : env.jid_update_counters with
  | none => simp [Indexer.report, hrank, hparse, hnz, hjid]
  | some url =>
    by_cases hall : (pf.take 3).all lineHasColon = true
    · by_cases hlen : 3 ≤ pf.length
      · simp [Indexer.report, hrank, hparse, hnz, hjid, hall, hlen]
      · simp [Indexer.report, hrank, hparse, hnz, hjid, hall, hlen]
    · simp [Indexer.report, hrank, hparse, hnz, hjid, hall]

/-! ### C6: POST failures are contained -/

/-- C6 (confirmed): whether or not the HTTP POST raises has no influence on
the file writes, the POST attempts or the error behaviour of `report`; when a
POST was attempted and failed, the console message is printed.  In
particular the indexing summary written just before the POST is identical in
the failing and non-failing runs. -/
theorem c6_post_failure_contained (idx : Indexer) (u : Option String) (env : Env)
    (s pf : List String) :
    (idx.report u env s pf true).writes = (idx.report u env s pf false).writes ∧
    (idx.report u env s pf true).posts = (idx.report u env s pf false).posts ∧
    (idx.report u env s pf true).err = (idx.report u env s pf false).err ∧
    ((idx.report u env s pf true).posts ≠ [] →
      (idx.report u env s pf true).console = true) := by
  by_cases hrank : idx.rank = 0
  · cases hparse : parseHitsTotal pf with
    | error e => simp [Indexer.report, hrank, hparse]
    | ok n_total =>
      by_cases hnz : n_total = 0
      · simp [Indexer.report, hrank, hparse, hnz]
      · cases hjid : env.jid_update_counters with
        | none => simp [Indexer.report, hrank, hparse, hnz, hjid]
        | some url =>
          by_cases hall : (pf.take 3).all lineHasColon = true
          · by_cases hlen : 3 ≤ pf.length
            · simp [Indexer.report, hrank, hparse, hnz, hjid, hall, hlen]
            · simp [Indexer.report, hrank, hparse, hnz, hjid, hall, hlen]
          · simp [Indexer.report, hrank, hparse, hnz, hjid, hall]
  · simp [Indexer.report, hrank]

/-- C6 witness: a concrete failing POST leaves the summary write unchanged
and prints the console message. -/
theorem c6_post_failure_contained_witness :
    (idxW.report none envJ sOne pfW true).writes
        = (idxW.report none envJ sOne pfW false).writes ∧
    (idxW.report none envJ sOne pfW true).console = true := by
  have h := c6_post_failure_contained idxW none envJ sOne pfW
  exact ⟨h.1, h.2.2.2 (by decide)⟩

/-! ### C4: the indexing rate summary -/

/-- C4 (confirmed): on the success path the summary file content is exactly
two newline-terminated lines — the indexed-event count, then the fractional
rate, the indexed count divided by the total formatted to two decimals — and
for 50 indexed out of 100 total the content contains `0.50`. -/
theorem c4_indexing_rate_summary (idx : Indexer) (u : Option String) (env : Env)
    (s pf : List String) (b : Bool) (n_total : Int) (hrank : idx.rank = 0)
    (hparse : parseHitsTotal pf = Except.ok n_total) (hnz : ¬ n_total = 0) :
    ∃ content : String,
      (idx.report u env s pf b).writes = [(idx.indexing_summary, content)] ∧
      splitNL content.data =
        [("Number of indexed events: "
            ++ pyStrNat (grepLines "Cell parameters" s).length).data,
         ("Fractional indexing rate rate: "
            ++ format2f ((grepLines "Cell parameters" s).length : Int) n_total).data,
         []] ∧
      ((grepLines "Cell parameters" s).length = 50 → n_total = 100 →
        "0.50".data <:+: content.data) := by
  refine ⟨_, report_ok_writes idx u env s pf b n_total hrank hparse hnz, ?_, ?_⟩
  · have hform :
        ("Number of indexed events: "
            ++ pyStrNat (grepLines "Cell parameters" s).length ++ "\n"
            ++ "Fractional indexing rate rate: "
            ++ format2f ((grepLines "Cell parameters" s).length : Int) n_total
            ++ "\n").data
          = ("Number of indexed events: "
              ++ pyStrNat (grepLines "Cell parameters" s).length).data
            ++ '\n' :: (("Fractional indexing rate rate: "
              ++ format2f ((grepLines "Cell parameters" s).length : Int) n_total).data
            ++ ['\n']) := by
      simp [String.data_append, List.append_assoc,
        show ("\n" : String).data = ['\n'] from rfl]
    rw [hform]
    refine splitNL_two ?_ ?_
    · intro hmem
      simp only [String.data_append, List.mem_append] at hmem
      rcases hmem with h | h
      · revert h
        decide
      · exact pyStrNat_ne_newline _ h
    · intro hmem
      simp only [String.data_append, List.mem_append] at hmem
      rcases hmem with h | h
      · revert h
        decide
      · exact format2f_ne_newline _ _ h
  · intro h50 h100
    rw [h50, h100]
    decide

/-- C4 witness: 50 indexed patterns out of 100 hits give a two-line summary
containing `0.50`. -/
theorem c4_indexing_rate_summary_witness :
    ∃ content : String,
      (idxW.report none envW sW pfW false).writes
          = [(idxW.indexing_summary, content)] ∧
      splitNL content.data =
        [("Number of indexed events: " ++ pyStrNat 50).data,
         ("Fractional indexing rate rate: " ++ format2f 50 100).data, []] ∧
      "0.50".data <:+: content.data := by
  have h50 : (grepLines "Cell parameters" sW).length = 50 := by decide
  obtain ⟨content, h1, h2, h3⟩ :=
    c4_indexing_rate_summary idxW none envW sW pfW false 100 (by decide) (by rfl)
      (by decide)
  refine ⟨content, h1, ?_, h3 h50 rfl⟩
  rw [h2, h50]
  rfl

/-! ### C9: the single POST and its five-entry payload -/

/-- C9 (confirmed): with the progress URL set and a well-formed three-line
peakfinding summary, `report` attempts exactly one POST whose payload is the
five-entry array: the three key/value pairs parsed from the summary's first
three lines, then the indexed-event count and the fractional rate. -/
theorem c9_single_post_payload (idx : Indexer) (u : Option String) (env : Env)
    (s : List String) (l1 l2 l3 : String) (rest : List String) (b : Bool)
    (url : String) (n_total : Int) (hrank : idx.rank = 0)
    (hjid : env.jid_update_counters = some url)
    (hparse : parseHitsTotal (l1 :: l2 :: l3 :: rest) = Except.ok n_total)
    (hnz : ¬ n_total = 0) (hc1 : lineHasColon l1 = true)
    (hc2 : lineHasColon l2 = true) (hc3 : lineHasColon l3 = true) :
    (idx.report u env s (l1 :: l2 :: l3 :: rest) b).posts =
      [(url,
        [(pfKey l1, pfValD l1), (pfKey l2, pfValD l2), (pfKey l3, pfValD l3),
         ("Number of indexed events",
           pyStrNat (grepLines "Cell parameters" s).length),
         ("Fractional indexing rate",
           format2f ((grepLines "Cell parameters" s).length : Int) n_total)])] ∧
    (idx.report u env s (l1 :: l2 :: l3 :: rest) b).posts.map (fun q => q.2.length)
        = [5] ∧
    (idx.report u env s (l1 :: l2 :: l3 :: rest) b).err = none := by
  refine ⟨?_, ?_, ?_⟩ <;>
    simp [Indexer.report, hrank, hparse, hnz, hjid, hc1, hc2, hc3]

/-- C9 witness: the concrete reporter issues the single five-entry POST. -/
theorem c9_single_post_payload_witness :
    (idxW.report none envJ sOne pfW false).posts =
      [("https://elog/update",
        [("Number of hits found", "100"),
         ("Number of hits with 10 or more peaks", "80"),
         ("Fractional hit rate", "0.8"),
         ("Number of indexed events", "1"),
         ("Fractional indexing rate", "0.01")])] ∧
    (idxW.report none envJ sOne pfW false).err = none := by
  have h := c9_single_post_payload idxW none envJ sOne
    "Number of hits found: 100" "Number of hits with 10 or more peaks: 80"
    "Fractional hit rate: 0.8" [] false "https://elog/update" 100
    (by decide) rfl (by rfl) (by decide) (by decide) (by decide) (by decide)
  exact ⟨h.1.trans (by decide), h.2.2⟩

/-! ### C3: the command-flag analysis -/

theorem optOK_of_lit {p L : List Char} (h1 : litOK p L) (h2 : L.head? = some ' ')
    (b : Bool) : optOK p (if b then L else []) := by
  cases b
  · exact Or.inl rfl
  · exact Or.inr ⟨h1, h2⟩

/-- The `indexamajig` command line decomposes into alternating literal and
parameter segments followed by the optional flag fragments. -/
theorem command_chain (idx : Indexer) :
    idx.command.data = chainConcat
      ([("indexamajig -i ".data, idx.lst.data), (" -o ".data, idx.stream.data),
        (" -j ".data, idx.nproc.data), (" -g ".data, idx.geom.data),
        (" --peaks=cxi --int-rad=".data, idx.rad.data),
        (" --indexing=".data, idx.methods.data),
        (" --tolerance=".data, idx.tolerance.data)]
        ++ (match idx.cell with
            | some c => [(" --pdb=".data, c.data)]
            | none => []))
      [(if idx.no_revalidate then " --no-revalidate".data else []),
       (if idx.multi then " --multi".data else []),
       (if idx.profile then " --profile".data else [])] := by
  cases hcell : idx.cell <;> cases hb1 : idx.no_revalidate <;> cases hb2 : idx.multi <;>
    cases hb3 : idx.profile <;>
    simp [Indexer.command, chainConcat, optsConcat, hcell, hb1, hb2, hb3,
      String.data_append, List.append_assoc, show ("" : String).data = [] from rfl]

/-- A pattern made only of flag text cannot occur in the command when it
occurs in no interpolated parameter: every straddle of a segment boundary is
ruled out by the first or last character of the neighbouring literal. -/
theorem notInfix_command (p : List Char) (idx : Indexer)
    (hne : p ≠ []) (hsp : dropsHeadNot p ' ')
    (hL1 : litOK p "indexamajig -i ".data) (hL2 : litOK p " -o ".data)
    (hL3 : litOK p " -j ".data) (hL4 : litOK p " -g ".data)
    (hL5 : litOK p " --peaks=cxi --int-rad=".data)
    (hL6 : litOK p " --indexing=".data) (hL7 : litOK p " --tolerance=".data)
    (hLr : litOK p " --no-revalidate".data)
    (hLm : optOK p (if idx.multi then " --multi".data else []))
    (hLf : litOK p " --profile".data)
    (hl : ¬ p <:+: idx.lst.data) (hs : ¬ p <:+: idx.stream.data)
    (hn : ¬ p <:+: idx.nproc.data) (hg : ¬ p <:+: idx.geom.data)
    (hr : ¬ p <:+: idx.rad.data) (hm : ¬ p <:+: idx.methods.data)
    (ht : ¬ p <:+: idx.tolerance.data)
    (hcp : ∀ c, idx.cell = some c →
      litOK p " --pdb=".data ∧ ¬ p <:+: c.data) :
    ¬ p <:+: idx.command.data := by
  intro hinf
  rw [command_chain idx] at hinf
  have hopts : ∀ o ∈ [(if idx.no_revalidate then " --no-revalidate".data else []),
      (if idx.multi then " --multi".data else []),
      (if idx.profile then " --profile".data else [])], optOK p o := by
    intro o ho
    simp only [List.mem_cons, List.not_mem_nil, or_false] at ho
    rcases ho with rfl | rfl | rfl
    · exact optOK_of_lit hLr rfl idx.no_revalidate
    · exact hLm
    · exact optOK_of_lit hLf rfl idx.profile
  cases hcell : idx.cell with
  | none =>
    rw [hcell] at hinf
    have hinf2 : p <:+: chainConcat
        [("indexamajig -i ".data, idx.lst.data), (" -o ".data, idx.stream.data),
         (" -j ".data, idx.nproc.data), (" -g ".data, idx.geom.data),
         (" --peaks=cxi --int-rad=".data, idx.rad.data),
         (" --indexing=".data, idx.methods.data),
         (" --tolerance=".data, idx.tolerance.data)]
        [(if idx.no_revalidate then " --no-revalidate".data else []),
         (if idx.multi then " --multi".data else []),
         (if idx.profile then " --profile".data else [])] := hinf
    refine notInfix_chainConcat hne hsp _ _ ?_ ?_ hopts hinf2
    · intro pr hpr
      fin_cases hpr
      exacts [⟨hL1, hl⟩, ⟨hL2, hs⟩, ⟨hL3, hn⟩, ⟨hL4, hg⟩, ⟨hL5, hr⟩, ⟨hL6, hm⟩,
        ⟨hL7, ht⟩]
    · intro pr hpr
      simp only [List.tail_cons] at hpr
      fin_cases hpr
      all_goals rfl
  | some c =>
    rw [hcell] at hinf
    have hinf2 : p <:+: chainConcat
        [("indexamajig -i ".data, idx.lst.data), (" -o ".data, idx.stream.data),
         (" -j ".data, idx.nproc.data), (" -g ".data, idx.geom.data),
         (" --peaks=cxi --int-rad=".data, idx.rad.data),
         (" --indexing=".data, idx.methods.data),
         (" --tolerance=".data, idx.tolerance.data),
         (" --pdb=".data, c.data)]
        [(if idx.no_revalidate then " --no-revalidate".data else []),
         (if idx.multi then " --multi".data else []),
         (if idx.profile then " --profile".data else [])] := hinf
    refine notInfix_chainConcat hne hsp _ _ ?_ ?_ hopts hinf2
    · intro pr hpr
      fin_cases hpr
      exacts [⟨hL1, hl⟩, ⟨hL2, hs⟩, ⟨hL3, hn⟩, ⟨hL4, hg⟩, ⟨hL5, hr⟩, ⟨hL6, hm⟩,
        ⟨hL7, ht⟩, ⟨(hcp c hcell).1, (hcp c hcell).2⟩]
    · intro pr hpr
      simp only [List.tail_cons] at hpr
      fin_cases hpr
      all_goals rfl

/-- C3 (corrected): for an Indexer none of whose interpolated parameter
strings (lst, stream, core count, geometry, radii, methods, tolerance, and
the cell path when present) contains the flag text `--multi` or `--pdb=`,
the command contains `--multi` iff the multi flag is on and contains
`--pdb=` (indeed `--pdb=<cell>`) iff a cell file was provided.  Without the
restriction the iff fails: a parameter can smuggle the flag text in. -/
theorem c3_command_flags (idx : Indexer)
    (hl : benignParam idx.lst) (hs : benignParam idx.stream)
    (hn : benignParam idx.nproc) (hg : benignParam idx.geom)
    (hr : benignParam idx.rad) (hm : benignParam idx.methods)
    (ht : benignParam idx.tolerance)
    (hcp : ∀ c, idx.cell = some c → benignParam c) :
    ("--multi".data <:+: idx.command.data ↔ idx.multi = true) ∧
    ("--pdb=".data <:+: idx.command.data ↔ idx.cell ≠ none) ∧
    (∀ c, idx.cell = some c → ("--pdb=" ++ c).data <:+: idx.command.data) := by
  have hfwd_multi : idx.multi = true → "--multi".data <:+: idx.command.data := by
    intro hmu
    rw [command_chain idx]
    apply infix_chainConcat_opts
    apply infix_optsConcat_of_mem _ (by simp : (if idx.multi then " --multi".data
      else []) ∈ _)
    rw [hmu]
    decide
  have hconv_multi : "--multi".data <:+: idx.command.data → idx.multi = true := by
    intro hinf
    by_contra hmu
    have hmu2 : idx.multi = false := by simpa using hmu
    refine notInfix_command "--multi".data idx (by decide) (by decide) (by decide)
      (by decide) (by decide) (by decide) (by decide) (by decide) (by decide)
      (by decide) ?_ (by decide) hl.1 hs.1 hn.1 hg.1 hr.1 hm.1 ht.1
      (fun c h => ⟨by decide, (hcp c h).1⟩) hinf
    rw [hmu2]
    exact Or.inl rfl
  have hfwd_pdb : ∀ c, idx.cell = some c →
      ("--pdb=" ++ c).data <:+: idx.command.data := by
    intro c hcell
    rw [command_chain idx]
    refine infix_chainConcat_pair _ _ (show (" --pdb=".data, c.data) ∈ _ by
      simp [hcell]) ?_
    exact ⟨[' '], [], by
      simp [String.data_append, List.append_assoc,
        show (" --pdb=" : String).data = ' ' :: ("--pdb=" : String).data from rfl]⟩
  have hconv_pdb : idx.cell = none → ¬ "--pdb=".data <:+: idx.command.data := by
    intro hcell
    exact notInfix_command "--pdb=".data idx (by decide) (by decide) (by decide)
      (by decide) (by decide) (by decide) (by decide) (by decide) (by decide)
      (by decide) (optOK_of_lit (by decide) (by decide) idx.multi) (by decide)
      hl.2 hs.2 hn.2 hg.2 hr.2 hm.2 ht.2
      (fun c h => by simp [hcell] at h)
  refine ⟨⟨hconv_multi, hfwd_multi⟩, ⟨?_, ?_⟩, hfwd_pdb⟩
  · intro hinf hnone
    exact hconv_pdb hnone hinf
  · intro hnone
    cases hcell : idx.cell with
    | none => exact absurd hcell hnone
    | some c =>
      refine List.IsInfix.trans ?_ (hfwd_pdb c hcell)
      exact List.IsPrefix.isInfix
        (show "--pdb=".data <+: ("--pdb=" ++ c).data from
          ⟨c.data, by simp [String.data_append]⟩)

/-- C3 witness: a benign concrete Indexer with a cell file satisfies both
iffs and the full `--pdb=<cell>` form. -/
theorem c3_command_flags_witness :
    ("--multi".data <:+: idxWcell.command.data ↔ idxWcell.multi = true) ∧
    ("--pdb=".data <:+: idxWcell.command.data ↔ idxWcell.cell ≠ none) ∧
    (∀ c, idxWcell.cell = some c →
      ("--pdb=" ++ c).data <:+: idxWcell.command.data) := by
  refine c3_command_flags idxWcell (by decide) (by decide) (by decide) (by decide)
    (by decide) (by decide) (by decide) ?_
  intro c h
  have h3 : some "cell.pdb" = some c := h
  injection h3 with h2
  rw [← h2]
  decide

/-- C3 counterexample: with `methods` set to the text `--multi`, the command
contains `--multi` although the multi flag is off, so the claim's
unrestricted iff is false at this Indexer. -/
theorem c3_command_flags_counterexample :
    "--multi".data <:+: cexMethods.command.data ∧ cexMethods.multi = false := by
  exact ⟨by decide, rfl⟩

/-! ### C8: the executable script -/

/-- C8 (corrected): on rank 0 `write_exe` writes a single script whose text
is a `#!/bin/bash` shebang line followed by the indexamajig command line and
the reporting self-invocation line, each newline-terminated — three lines,
not the claimed two: the shebang line comes before the two command lines. -/
theorem c8_script_lines (idx : Indexer) (hrank : idx.rank = 0)
    (h1 : '\n' ∉ idx.command.data) (h2 : '\n' ∉ idx.commandReport.data) :
    ∃ content : String,
      idx.write_exe = [(idx.tmp_exe, content)] ∧
      splitNL content.data
        = ["#!/bin/bash".data, idx.command.data, idx.commandReport.data, []] := by
  refine ⟨"#!/bin/bash\n" ++ idx.command ++ "\n" ++ idx.commandReport ++ "\n",
    by simp [Indexer.write_exe, hrank], ?_⟩
  have hform :
      ("#!/bin/bash\n" ++ idx.command ++ "\n" ++ idx.commandReport ++ "\n").data
        = "#!/bin/bash".data ++ '\n' :: (idx.command.data ++ '\n' ::
            (idx.commandReport.data ++ ['\n'])) := by
    simp [String.data_append, List.append_assoc,
      show ("#!/bin/bash\n" : String).data = "#!/bin/bash".data ++ ['\n'] from rfl,
      show ("\n" : String).data = ['\n'] from rfl]
  rw [hform]
  exact splitNL_three (by decide) h1 h2

/-- C8 witness: the concrete script consists of the shebang, the command and
the reporting invocation. -/
theorem c8_script_lines_witness :
    ∃ content : String,
      idxW.write_exe = [(idxW.tmp_exe, content)] ∧
      splitNL content.data
        = ["#!/bin/bash".data, idxW.command.data, idxW.commandReport.data, []] :=
  c8_script_lines idxW (by decide) (by decide) (by decide)

/-- C8 counterexample: the script written for the concrete Indexer is not
the claimed two-line text — command line then reporting line — under either
reading of the trailing newline, because the shebang line comes first. -/
theorem c8_script_lines_counterexample :
    idxW.write_exe
        ≠ [(idxW.tmp_exe, idxW.command ++ "\n" ++ idxW.commandReport ++ "\n")] ∧
    idxW.write_exe ≠ [(idxW.tmp_exe, idxW.command ++ "\n" ++ idxW.commandReport)] := by
  exact ⟨by decide, by decide⟩

end Btx
